import Mathlib

/-!
Verification of the build-log failure triage pipeline
(`resources/lab-1-solutions/04_hybrid_approach.py` and
`resources/slackbot/src/slackbot/build_analysis.py`).

The Python sources are regex-driven, so we first give a small executable
regular-expression evaluator (enough for the patterns appearing in the two
files: literals, character classes, alternation, `*`/`+`/`?` over classes,
word boundaries `\b` and the string anchor `^`), then shallowly embed the
pipeline functions and prove or refute the specified properties.
-/

set_option maxRecDepth 10000

/-! ### Characters and Python string helpers -/

/-- `\w` in Python's `re` (ASCII fragment): letters, digits, underscore. -/
def isWordChar (c : Char) : Bool :=
  (('a' ≤ c && c ≤ 'z') || ('A' ≤ c && c ≤ 'Z') || ('0' ≤ c && c ≤ '9') || c = '_')

/-- `\s` in Python's `re` (ASCII fragment): space, tab, newline, CR, VT, FF. -/
def isSpaceChar (c : Char) : Bool :=
  (c = ' ' || c = '\t' || c = '\n' || c = '\r' || c = Char.ofNat 11 || c = Char.ofNat 12)

/-- `\d` in Python's `re` (ASCII fragment). -/
def isDigitChar (c : Char) : Bool := ('0' ≤ c && c ≤ '9')

/-- `.` in Python's `re` without `DOTALL`: any character except newline. -/
def isDotChar (c : Char) : Bool := !(c = '\n')

/-- Python `str.strip()` on a character list: drop whitespace at both ends. -/
def pyStripList (cs : List Char) : List Char :=
  ((cs.dropWhile isSpaceChar).reverse.dropWhile isSpaceChar).reverse

/-- Python `str.strip()`. -/
def pyStrip (s : String) : String := String.mk (pyStripList s.data)

/-- Python `str.lower()` (ASCII fragment). -/
def pyLower (s : String) : String := String.mk (s.data.map Char.toLower)

/-- Python `s[:n]` on a string. -/
def pyTake (n : Nat) (s : String) : String := String.mk (s.data.take n)

/-! ### A small regular-expression evaluator

`RE` mirrors the regex fragment used by the Python sources.  `runRE r prev s`
returns the list of states `(prev', s')` reachable by matching `r` at the
start of `s`, where `prev`/`prev'` is the reversed list of characters already
consumed (needed to evaluate the word-boundary predicate `\b`).  `reSearch`
is `re.search`: the pattern may match starting at any position. -/

inductive RE where
  | eps : RE
  | cls (f : Char → Bool) : RE
  | seq (a b : RE) : RE
  | alt (a b : RE) : RE
  | star (a : RE) : RE
  | wb : RE
  | bos : RE

/-- `\b` of Python `re`: the two sides disagree on wordness (edges are
non-word). `prev` is the reversed consumed input. -/
def atBoundary (prev s : List Char) : Bool :=
  let l := match prev with | [] => false | c :: _ => isWordChar c
  let r := match s with | [] => false | c :: _ => isWordChar c
  l != r

/-- Iterate the matcher of a starred subpattern up to `fuel` times, collecting
every intermediate state (Kleene star = zero or more repetitions). -/
def starRun (step : List Char → List Char → List (List Char × List Char)) :
    Nat → List (List Char × List Char) → List (List Char × List Char)
  | 0, states => states
  | fuel + 1, states =>
      states ++ starRun step fuel (states.flatMap (fun p => step p.1 p.2))

def runRE : RE → List Char → List Char → List (List Char × List Char)
  | .eps, prev, s => [(prev, s)]
  | .cls f, prev, s =>
      match s with
      | [] => []
      | c :: rest => if f c then [(c :: prev, rest)] else []
  | .seq a b, prev, s =>
      (runRE a prev s).flatMap (fun p => runRE b p.1 p.2)
  | .alt a b, prev, s => runRE a prev s ++ runRE b prev s
  | .star a, prev, s => starRun (fun p t => runRE a p t) (s.length + 1) [(prev, s)]
  | .wb, prev, s => if atBoundary prev s then [(prev, s)] else []
  | .bos, prev, s => if prev.isEmpty then [(prev, s)] else []

/-- Does `r` match starting exactly at the state `(prev, s)`? -/
def reMatchesAt (r : RE) (prev s : List Char) : Bool :=
  !(runRE r prev s).isEmpty

def reSearchAux (r : RE) : List Char → List Char → Bool
  | prev, s =>
      if reMatchesAt r prev s then true
      else
        match s with
        | [] => false
        | c :: rest => reSearchAux r (c :: prev) rest

/-- Python `re.search(r, s)`: try to match at every position. -/
def reSearch (r : RE) (s : String) : Bool := reSearchAux r [] s.data

/-! Pattern-building helpers.  Case-insensitive searches (`re.IGNORECASE`)
are modelled by building the literal with case-folded character tests. -/

def rePlus (a : RE) : RE := .seq a (.star a)

def reOpt (a : RE) : RE := .alt a .eps

/-- A literal character, optionally case-insensitive. -/
def reChar (ci : Bool) (c : Char) : RE :=
  .cls (fun x => if ci then x.toLower = c.toLower else x = c)

/-- A literal string, optionally case-insensitive. -/
def reLit (ci : Bool) (s : String) : RE :=
  s.data.foldr (fun c acc => .seq (reChar ci c) acc) .eps

def reDot : RE := .cls isDotChar

def reSpace : RE := .cls isSpaceChar

def reNonSpace : RE := .cls (fun c => !isSpaceChar c)

def reDigit : RE := .cls isDigitChar

/-! ### The regex tables of the Python sources

`ERROR_PATTERNS`, `CATEGORY_RULES` and `ANSI_RE` are declared identically in
`04_hybrid_approach.py` and `build_analysis.py`; we define them once.
`ERROR_PATTERNS` is always searched with `re.IGNORECASE`, so its literals are
built case-insensitively; `CATEGORY_RULES` is compiled with no flags, so its
literals are case-sensitive. -/

/-- `[A-Za-z0-9_\-]` (the class of the `-l<lib>` category pattern). -/
def isLibNameChar (c : Char) : Bool :=
  (('A' ≤ c && c ≤ 'Z') || ('a' ≤ c && c ≤ 'z') || ('0' ≤ c && c ≤ '9') || c = '_' || c = '-')

/-- `r"\berror:\s+(.+)"` (capture groups are irrelevant to a boolean search). -/
def patErrorColon : RE :=
  .seq .wb (.seq (reLit true "error:") (.seq (rePlus reSpace) (rePlus reDot)))

/-- `r"\bfatal:\s+(.+)"` -/
def patFatal : RE :=
  .seq .wb (.seq (reLit true "fatal:") (.seq (rePlus reSpace) (rePlus reDot)))

/-- `r"\bundefined reference to\s+(.+)"` -/
def patUndefRef : RE :=
  .seq .wb (.seq (reLit true "undefined reference to") (.seq (rePlus reSpace) (rePlus reDot)))

/-- `r"\bundefined symbol:\s+(.+)"` -/
def patUndefSym : RE :=
  .seq .wb (.seq (reLit true "undefined symbol:") (.seq (rePlus reSpace) (rePlus reDot)))

/-- `r"\bld:\s+cannot find\s+(.+)"` -/
def patLdCannotFind : RE :=
  .seq .wb (.seq (reLit true "ld:") (.seq (rePlus reSpace)
    (.seq (reLit true "cannot find") (.seq (rePlus reSpace) (rePlus reDot)))))

/-- `r"\bcannot find\s+(-l\S+|\S+)"` -/
def patCannotFind : RE :=
  .seq .wb (.seq (reLit true "cannot find") (.seq (rePlus reSpace)
    (.alt (.seq (reLit true "-l") (rePlus reNonSpace)) (rePlus reNonSpace))))

/-- `r"\bno rule to make target\b.*"` -/
def patNoRule : RE :=
  .seq .wb (.seq (reLit true "no rule to make target") (.seq .wb (.star reDot)))

/-- `r"\bcmake error\b[:]?\s*(.+)"` -/
def patCmakeError : RE :=
  .seq .wb (.seq (reLit true "cmake error") (.seq .wb
    (.seq (reOpt (reChar true ':')) (.seq (.star reSpace) (rePlus reDot)))))

/-- `r"\bconfiguration error\b[:]?\s*(.+)"` -/
def patConfigError : RE :=
  .seq .wb (.seq (reLit true "configuration error") (.seq .wb
    (.seq (reOpt (reChar true ':')) (.seq (.star reSpace) (rePlus reDot)))))

/-- `ERROR_PATTERNS` (searched with `re.IGNORECASE` in both files). -/
def ERROR_PATTERNS : List RE :=
  [patErrorColon, patFatal, patUndefRef, patUndefSym, patLdCannotFind,
   patCannotFind, patNoRule, patCmakeError, patConfigError]

/-- `r"\bFAILED\b|\bFAILURE\b"` — searched case-SENSITIVELY in `match_error`. -/
def patFailed : RE :=
  .alt (.seq .wb (.seq (reLit false "FAILED") .wb))
       (.seq .wb (.seq (reLit false "FAILURE") .wb))

/-- `r"test|target|build|link"` — searched with `re.IGNORECASE` in `match_error`. -/
def patBuildWord : RE :=
  .alt (reLit true "test") (.alt (reLit true "target") (.alt (reLit true "build") (reLit true "link")))

/-- `r"\b(ld: )?cannot find\b|\b-l[A-Za-z0-9_\-]+\b"` (category `linker_missing`,
case-sensitive). -/
def patCatLinkerMissing : RE :=
  .alt (.seq .wb (.seq (reOpt (reLit false "ld: ")) (.seq (reLit false "cannot find") .wb)))
       (.seq .wb (.seq (reChar false '-') (.seq (reChar false 'l') (.seq (rePlus (.cls isLibNameChar)) .wb))))

/-- `r"\bundefined reference\b|\bundefined symbol\b"` (category `linker_undefined`). -/
def patCatLinkerUndefined : RE :=
  .alt (.seq .wb (.seq (reLit false "undefined reference") .wb))
       (.seq .wb (.seq (reLit false "undefined symbol") .wb))

/-- `r"\bcmake error\b|\bno rule to make target\b|\bconfiguration error\b"`
(category `cmake_config`). -/
def patCatCmakeConfig : RE :=
  .alt (.seq .wb (.seq (reLit false "cmake error") .wb))
       (.alt (.seq .wb (.seq (reLit false "no rule to make target") .wb))
             (.seq .wb (.seq (reLit false "configuration error") .wb)))

/-- `r"\berror:\b|^\s*\d+\s*errors? generated\b"` (category `compilation`). -/
def patCatCompilation : RE :=
  .alt (.seq .wb (.seq (reLit false "error:") .wb))
       (.seq .bos (.seq (.star reSpace) (.seq (rePlus reDigit) (.seq (.star reSpace)
         (.seq (reLit false "error") (.seq (reOpt (reChar false 's'))
           (.seq (reLit false " generated") .wb)))))))

/-- `CATEGORY_RULES` (order matters; compiled without flags in both files). -/
def CATEGORY_RULES : List (String × RE) :=
  [("linker_missing", patCatLinkerMissing),
   ("linker_undefined", patCatLinkerUndefined),
   ("cmake_config", patCatCmakeConfig),
   ("compilation", patCatCompilation)]

/-- `r"\berror\b|undefined|cannot find|cmake"` — the evidence-keyword scan of
the fallback synthesizer in `run` (searched with `re.IGNORECASE`). -/
def patFallbackKeyword : RE :=
  .alt (.seq .wb (.seq (reLit true "error") .wb))
       (.alt (reLit true "undefined") (.alt (reLit true "cannot find") (reLit true "cmake")))

/-! ### `strip_ansi`

`ANSI_RE` is `ESC`, one character in `0x40..0x5F`, a run of characters in
`0x30..0x3F`, a run in `0x20..0x2F`, and one final character in `0x40..0x7E`.
The three repeated classes are pairwise disjoint character ranges, so greedy
matching needs no backtracking: after `ESC` and one intro character we take
the maximal parameter run, then the maximal intermediate run, then exactly
one final character.  `re.sub` removes each (leftmost, non-overlapping)
match. -/

def isAnsiIntro (c : Char) : Bool := (Char.ofNat 0x40 ≤ c && c ≤ Char.ofNat 0x5F)

def isAnsiParam (c : Char) : Bool := (Char.ofNat 0x30 ≤ c && c ≤ Char.ofNat 0x3F)

def isAnsiInter (c : Char) : Bool := (Char.ofNat 0x20 ≤ c && c ≤ Char.ofNat 0x2F)

def isAnsiFinal (c : Char) : Bool := (Char.ofNat 0x40 ≤ c && c ≤ Char.ofNat 0x7E)

/-- Try to match `ANSI_RE` minus its leading `ESC` at the head of `cs`,
returning the remainder after the match. -/
def ansiTail (cs : List Char) : Option (List Char) :=
  match cs with
  | [] => none
  | c :: rest =>
      if isAnsiIntro c then
        let afterParams := rest.dropWhile isAnsiParam
        let afterInter := afterParams.dropWhile isAnsiInter
        match afterInter with
        | [] => none
        | f :: tail => if isAnsiFinal f then some tail else none
      else none

/-- `strip_ansi`, on character lists, with fuel (`fuel ≥ length` suffices:
every removed match consumes at least the `ESC` character). -/
def stripAnsiAux : Nat → List Char → List Char
  | 0, _ => []
  | _, [] => []
  | fuel + 1, c :: rest =>
      if c = Char.ofNat 27 then
        match ansiTail rest with
        | some remainder => stripAnsiAux fuel remainder
        | none => c :: stripAnsiAux fuel rest
      else c :: stripAnsiAux fuel rest

/-- `strip_ansi(s) = ANSI_RE.sub("", s)` (both Python files). -/
def strip_ansi (s : String) : String := String.mk (stripAnsiAux s.data.length s.data)

/-! ### `04_hybrid_approach.py`: detector, clusterer, extractor, categorizer -/

/-- `match_error` (lines 66–74): strip the line, search every `ERROR_PATTERNS`
entry with `re.IGNORECASE`, then the CI-marker rule: `FAILED`/`FAILURE`
(case-sensitive) together with a build keyword (case-insensitive). -/
def match_error (line : String) : Bool :=
  let ls := pyStrip line
  if ERROR_PATTERNS.any (fun pat => reSearch pat ls) then true
  else if reSearch patFailed ls && reSearch patBuildWord ls then true
  else false

def findErrAux : Int → List String → List Int
  | _, [] => []
  | i, l :: ls =>
      if match_error l then i :: findErrAux (i + 1) ls else findErrAux (i + 1) ls

/-- `find_error_indices` (lines 76–81): 1-based indices of matching lines. -/
def find_error_indices (lines : List String) : List Int := findErrAux 1 lines

/-- The loop body of `cluster_indices`: in the Python loop, the last element
of the last cluster is always the previously processed number, so the
recursion carries it as `last`.  Returns (rest of the current cluster,
the clusters after it). -/
def clusterAux (window : Int) : Int → List Int → List Int × List (List Int)
  | _, [] => ([], [])
  | last, n :: rest =>
      let p := clusterAux window n rest
      if n - last ≤ window then (n :: p.1, p.2) else ([], (n :: p.1) :: p.2)

/-- `cluster_indices` (lines 83–93): group nearby error lines by proximity. -/
def cluster_indices (indices : List Int) (window : Int) : List (List Int) :=
  match indices with
  | [] => []
  | i :: rest =>
      let p := clusterAux window i rest
      (i :: p.1) :: p.2

/-- Python `min` of a non-empty list (`min([])` raises; the defensive `0` is
never reached on the clusters this program builds, which are non-empty). -/
def pymin : List Int → Int
  | [] => 0
  | x :: xs => xs.foldl min x

/-- Python `max` of a non-empty list, same convention as `pymin`. -/
def pymax : List Int → Int
  | [] => 0
  | x :: xs => xs.foldl max x

/-- Python `lines[i]` for `0 ≤ i < len(lines)` (out-of-range access raises in
Python and is never reached on the inputs this program produces; the
defensive `""` keeps the model total). -/
def pyGet (lines : List String) (i : Int) : String :=
  if 0 ≤ i then lines.getD i.toNat "" else ""

/-- `slice_with_context` (lines 95–98):
`start = max(1, start) - 1; end = min(len(lines), end); [lines[i] for i in range(start, end)]`. -/
def slice_with_context (lines : List String) (start stop : Int) : List String :=
  let s := (max 1 start - 1).toNat
  let e := (min (lines.length : Int) stop).toNat
  (lines.drop s).take (e - s)

/-- A `Section` dict as built by `extract_sections`:
`{"line_number": …, "headline": …, "lines": …}`. -/
structure Section where
  line_number : Int
  headline : String
  lines : List String
deriving Repr, DecidableEq

/-- The `for c in clusters[:max_sections]` loop of `extract_sections`,
carrying the running `total_chars`.  A cluster whose full text busts the
budget is retried at half length; if even that busts the budget the loop
`break`s, keeping the sections already committed. -/
def extractGo (lines : List String) (ctx : Int) (maxChars : Nat) :
    List (List Int) → Nat → List Section × Nat
  | [], total => ([], total)
  | c :: cs, total =>
      let lo := pymin c - ctx
      let hi := pymax c + ctx
      let chunk := slice_with_context lines lo hi
      let chunkText := pyStrip (String.intercalate "\n" chunk)
      let headLineNo := pymin c
      let headLine := pyStrip (pyGet lines (headLineNo - 1))
      if total + chunkText.length > maxChars then
        let halfLines := chunk.take (max 1 (chunk.length / 2))
        let truncated := String.intercalate "\n" halfLines
        if total + truncated.length > maxChars then ([], total)
        else
          let p := extractGo lines ctx maxChars cs (total + truncated.length)
          (⟨headLineNo, headLine, halfLines⟩ :: p.1, p.2)
      else
        let p := extractGo lines ctx maxChars cs (total + chunkText.length)
        (⟨headLineNo, headLine, chunk⟩ :: p.1, p.2)

/-- `extract_sections` (lines 100–129). -/
def extract_sections (lines : List String) (clusters : List (List Int))
    (ctx : Int) (maxSections maxChars : Nat) : List Section × Nat :=
  extractGo lines ctx maxChars (clusters.take maxSections) 0

/-- `categorise_section` (lines 131–135): first matching `CATEGORY_RULES`
entry wins, otherwise `"other"`. -/
def categorise_section (text : String) : String :=
  match CATEGORY_RULES.find? (fun rule => reSearch rule.2 text) with
  | some rule => rule.1
  | none => "other"

/-! ### JSON values, `valid_schema`, `extract_json_block`, `parse_llm_response`

Parsed JSON data (what `json.loads` returns) is modelled by `Json`; objects
are ordered key/value lists (numbers are modelled as integers — no claim
involves fractional values). -/

inductive Json where
  | null : Json
  | bool (b : Bool) : Json
  | num (n : Int) : Json
  | str (s : String) : Json
  | arr (elems : List Json) : Json
  | obj (fields : List (String × Json)) : Json

/-- `d[k]` / `k in d` on a JSON object's fields. -/
def jLookup : List (String × Json) → String → Option Json
  | [], _ => none
  | (k, v) :: kvs, key => if k = key then some v else jLookup kvs key

/-- `obj.get("root_causes", [])` when the value is a list, else `[]`. -/
def jGetList (kvs : List (String × Json)) (key : String) : List Json :=
  match jLookup kvs key with
  | some (.arr l) => l
  | _ => []

/-- The element check in `valid_schema`'s `for rc in obj.get("root_causes", [])`
loop: `rc` must be a dict containing the keys `cause`, `confidence` and
`next_action` (the values are not inspected) and a non-empty `evidence` list. -/
def validRootCause (rc : Json) : Bool :=
  match rc with
  | .obj kvs =>
      (jLookup kvs "cause").isSome && (jLookup kvs "confidence").isSome &&
      (jLookup kvs "next_action").isSome &&
      (match jLookup kvs "evidence" with
       | some (.arr evs) => !evs.isEmpty
       | _ => false)
  | _ => false

/-- `valid_schema` (lines 297–311): a dict whose `root_causes` and `summary`
entries are lists, every `root_causes` element passing `validRootCause`. -/
def valid_schema (j : Json) : Bool :=
  match j with
  | .obj kvs =>
      (match jLookup kvs "root_causes" with | some (.arr _) => true | _ => false) &&
      (match jLookup kvs "summary" with | some (.arr _) => true | _ => false) &&
      (jGetList kvs "root_causes").all validRootCause
  | _ => false

/-- Opening/closing bracket characters, written via codepoints 123/125
(braces) and 91/93 (square brackets). -/
def braceO : Char := Char.ofNat 123

def braceC : Char := Char.ofNat 125

def brackO : Char := Char.ofNat 91

def brackC : Char := Char.ofNat 93

/-- The scanning loop of `extract_json_block`: `acc` is the reversed text
consumed since `start`, `stack` the expected closers. -/
def ejbLoop : List Char → List Char → List Char → Option (List Char)
  | _, _, [] => none
  | acc, stack, c :: rest =>
      if c = braceO || c = brackO then
        ejbLoop (c :: acc) ((if c = braceO then braceC else brackC) :: stack) rest
      else if c = braceC || c = brackC then
        match stack with
        | [] => ejbLoop (c :: acc) [] rest
        | top :: stack' =>
            if c ≠ top then ejbLoop (c :: acc) stack rest
            else if stack'.isEmpty then some (c :: acc).reverse
            else ejbLoop (c :: acc) stack' rest
      else ejbLoop (c :: acc) stack rest

/-- `extract_json_block` (lines 276–295): start at the first brace (or, if
none, the first square bracket) and return the first balanced block. -/
def extract_json_block (s : String) : String :=
  let cs := s.data
  let startIdx :=
    match cs.findIdx? (· = braceO) with
    | some i => some i
    | none => cs.findIdx? (· = brackO)
  match startIdx with
  | none => ""
  | some i =>
      match ejbLoop [] [] (cs.drop i) with
      | some block => String.mk block
      | none => ""

/-- The `candidate` computed by `parse_llm_response` (lines 317–319): the
stripped raw text if it starts with a brace or square bracket, otherwise the
extracted JSON block. -/
def responseCandidate (raw : String) : String :=
  let stripped := pyStrip raw
  if (match stripped.data with
      | c :: _ => c = braceO || c = brackO
      | [] => false) then stripped
  else extract_json_block stripped

/-- `parse_llm_response` (lines 313–328), with `json.loads` — an external
library routine — abstracted as the parameter `loads` (`none` models a
`JSONDecodeError`; the error message's exception text is modelled by a fixed
string).  Returns `(obj, error_msg)`, `error_msg` empty on success. -/
def parse_llm_response (loads : String → Option Json) (raw : String) :
    Json × String :=
  if raw = "" then (.obj [], "empty response")
  else if responseCandidate raw = "" then (.obj [], "no json block found")
  else
    match loads (responseCandidate raw) with
    | none => (.obj [], "json decode error")
    | some obj =>
        if valid_schema obj then (obj, "") else (.obj [], "schema validation failed")

/-! ### The fallback synthesizer and the `run` decision point (lines 337–465)

`Counter(heads).most_common(3)` is modelled by counting the distinct
headlines in first-occurrence order and stable-sorting by count descending
(CPython's `Counter` iterates keys in insertion order and `most_common` is
stable, keeping earlier-encountered keys first among equal counts). -/

/-- Distinct elements in order of first occurrence (`Counter`'s key order). -/
def firstOccurAux (seen : List String) : List String → List String
  | [] => []
  | h :: t => if h ∈ seen then firstOccurAux seen t else h :: firstOccurAux (h :: seen) t

def firstOccur (l : List String) : List String := firstOccurAux [] l

/-- Insert into a count-descending list after every entry with a count ≥ the
new one (stable descending insertion). -/
def insertDesc (x : String × Nat) : List (String × Nat) → List (String × Nat)
  | [] => [x]
  | y :: ys => if x.2 ≤ y.2 then y :: insertDesc x ys else x :: y :: ys

def stableSortDesc (l : List (String × Nat)) : List (String × Nat) :=
  l.foldl (fun acc x => insertDesc x acc) []

/-- `Counter(heads).most_common(3)`. -/
def mostCommon3 (heads : List String) : List (String × Nat) :=
  (stableSortDesc ((firstOccur heads).map (fun k => (k, heads.count k)))).take 3

/-- `heads = [s["headline"] for s in sections if s.get("headline")]`
(Python truthiness: the empty string is falsy). -/
def sectionHeads (sections : List Section) : List String :=
  sections.filterMap (fun s => if s.headline = "" then none else some s.headline)

/-- First context line matching the evidence-keyword regex, with its
0-based offset (the `for offset, t in enumerate(sec["lines"])` + `break`). -/
def firstKeywordHit : Nat → List String → Option (Nat × String)
  | _, [] => none
  | i, t :: ts =>
      if reSearch patFallbackKeyword t then some (i, t) else firstKeywordHit (i + 1) ts

/-- The `evidence` list of one fallback root cause (lines 406–416):
`ev or [{"line": sec["line_number"], "snippet": sec["headline"][:200]}] if sec else []`
— by Python precedence, `(ev or [headline entry]) if sec else []`. -/
def fallbackEvidence (sections : List Section) (cause : String) : List Json :=
  match sections.find? (fun s => s.headline == cause) with
  | none => []
  | some sec =>
      match firstKeywordHit 0 sec.lines with
      | some (off, t) =>
          [.obj [("line", .num (sec.line_number + off)),
                 ("snippet", .str (pyTake 200 (pyStrip t)))]]
      | none =>
          [.obj [("line", .num sec.line_number),
                 ("snippet", .str (pyTake 200 sec.headline))]]

/-- One entry of `top_causes` (lines 414–419). -/
def fallbackRc (sections : List Section) (cause : String) : Json :=
  .obj [("cause", .str (pyTake 120 cause)),
        ("evidence", .arr (fallbackEvidence sections cause)),
        ("confidence", .str "low"),
        ("next_action", .str "Re-run with stricter prompt or inspect deterministic section.")]

/-- The fixed three-line fallback summary (lines 422–424). -/
def fallbackSummary : List Json :=
  [.str "AI output invalid; using deterministic fallback.",
   .str "Inspect sections.json for evidence.",
   .str "Re-run with a JSON-enforcing model or smaller prompt."]

/-- The whole fallback object built when `parse_llm_response` reports an
error (lines 399–425). -/
def fallback_obj (sections : List Section) : Json :=
  .obj [("root_causes", .arr ((mostCommon3 (sectionHeads sections)).map
          (fun p => fallbackRc sections p.1))),
        ("summary", .arr fallbackSummary)]

/-- The result object `run` reports after a non-empty collaborator response:
the parsed object on success, the fallback otherwise (lines 396–426). -/
def run_obj (loads : String → Option Json) (raw : String)
    (sections : List Section) : Json :=
  let pr := parse_llm_response loads raw
  if pr.2 = "" then pr.1 else fallback_obj sections

/-- The result printed when the collaborator call failed or returned an
empty response (lines 383–386). -/
def emptyResponseResults : Json :=
  .obj [("root_causes", .arr []),
        ("summary", .arr [.str "No AI summary available.",
                          .str "See deterministic sections.",
                          .str "Check CI artefacts."])]

/-- `run`'s exit status and reported result as functions of the log lines,
the knob values and the collaborator's raw response (lines 337–465): with no
sections the function exits `0` early reporting nothing; with an empty
response it reports `emptyResponseResults` and exits `1`; otherwise it
reports `run_obj` and exits `0`. -/
def run_outcome (loads : String → Option Json) (lines : List String)
    (window ctx : Int) (maxSections maxChars : Nat) (raw : String) :
    Nat × Option Json :=
  let sections :=
    (extract_sections lines (cluster_indices (find_error_indices lines) window)
      ctx maxSections maxChars).1
  if sections.isEmpty then (0, none)
  else if raw = "" then (1, some emptyResponseResults)
  else (0, some (run_obj loads raw sections))

/-! ### `slackbot/build_analysis.py` -/

/-- The splitting loop of Python `str.split("\\n")`: `acc` is the reversed
current field. -/
def splitNlAux : List Char → List Char → List String
  | acc, [] => [String.mk acc.reverse]
  | acc, c :: rest =>
      if c = '\n' then String.mk acc.reverse :: splitNlAux [] rest
      else splitNlAux (c :: acc) rest

/-- Python `log_content.split("\\n")` (note `"".split("\\n") == [""]`). -/
def pySplitNewline (s : String) : List String := splitNlAux [] s.data

/-- An element of the `errors` list built by `find_error_lines_with_context`. -/
structure SlackError where
  line_number : Nat
  error_line : String
  context : List String
deriving Repr, DecidableEq

/-- The enumeration loop of `find_error_lines_with_context`: `i` is the
0-based index of the head of `rest` within `lines`. -/
def felcAux (lines : List String) (ctxLines : Nat) : Nat → List String → List SlackError
  | _, [] => []
  | i, l :: rest =>
      let lineClean := strip_ansi l
      if ERROR_PATTERNS.any (fun pat => reSearch pat lineClean) then
        let s := i - ctxLines
        let e := min lines.length (i + ctxLines + 1)
        let context := ((lines.drop s).take (e - s)).map (fun t => pyStrip (strip_ansi t))
        ⟨i + 1, pyStrip lineClean, context⟩ :: felcAux lines ctxLines (i + 1) rest
      else felcAux lines ctxLines (i + 1) rest

/-- `find_error_lines_with_context` (`build_analysis.py` lines 43–65):
flag each ANSI-stripped line matching an `ERROR_PATTERNS` entry
(`re.IGNORECASE`), keeping a window of `context_lines` raw lines around it
(each context entry ANSI-stripped and stripped). -/
def find_error_lines_with_context (lines : List String) (contextLines : Nat) :
    List SlackError :=
  felcAux lines contextLines 0 lines

/-- The category of one error in `categorize_errors`: the rules are searched
(case-sensitively) against the lowercased error line; no match ⇒ `"other"`. -/
def slackErrorCategory (e : SlackError) : String :=
  match CATEGORY_RULES.find? (fun rule => reSearch rule.2 (pyLower e.error_line)) with
  | some rule => rule.1
  | none => "other"

/-- Append `e` under key `k`, preserving the `defaultdict`'s insertion order
of first key occurrence. -/
def addToCategory (acc : List (String × List SlackError)) (k : String)
    (e : SlackError) : List (String × List SlackError) :=
  match acc with
  | [] => [(k, [e])]
  | (k', es) :: rest =>
      if k' = k then (k', es ++ [e]) :: rest else (k', es) :: addToCategory rest k e

/-- `categorize_errors` (lines 68–85). -/
def categorize_errors (errors : List SlackError) : List (String × List SlackError) :=
  errors.foldl (fun acc e => addToCategory acc (slackErrorCategory e) e) []

/-- `create_focused_prompt` (lines 88–116); `build_info` is a (possibly
empty, hence falsy) dict of strings. -/
def create_focused_prompt (errors : List SlackError)
    (buildInfo : List (String × String)) : String :=
  let buildSection :=
    if buildInfo.isEmpty then ""
    else
      "Build: " ++ ((buildInfo.lookup "component").getD "unknown") ++ " (" ++
        ((buildInfo.lookup "build_id").getD "unknown") ++ ")\n\n"
  let errorSections := (errors.take 20).map (fun e =>
    "Line " ++ toString e.line_number ++ ":\n" ++ String.intercalate "\n" e.context ++ "\n")
  "Analyze this build log failure. Focus on the error sections below.\n\n" ++
    buildSection ++ "Error sections:\n" ++ String.intercalate "\n" errorSections ++
    "\n\nProvide a JSON response with:\n" ++
    "1. \"root_causes\": Array of top 3 root causes, each with:\n" ++
    "   - \"cause\": Brief description\n" ++
    "   - \"evidence\": Line number and snippet\n" ++
    "   - \"confidence\": \"high\" | \"medium\" | \"low\"\n" ++
    "   - \"next_action\": What to do to fix it\n" ++
    "2. \"summary\": Array of 3 bullet points summarizing the failure\n\n" ++
    "Be concise and actionable."

/-- `analysis[key] = value` on a JSON dict (replace in place or append). -/
def jSetKey (j : Json) (key : String) (v : Json) : Json :=
  match j with
  | .obj kvs =>
      if (jLookup kvs key).isSome then
        .obj (kvs.map (fun p => if p.1 = key then (p.1, v) else p))
      else .obj (kvs ++ [(key, v)])
  | other => other

/-- The early result of `analyze_build_log` when no line matches (lines
155–160). -/
def noErrorsResult : Json :=
  .obj [("root_causes", .arr []),
        ("summary", .arr [.str "No errors found in build log"]),
        ("error_count", .num 0)]

/-- `analyze_build_log` (lines 147–177).  The network-bound `analyze_with_llm`
is an external collaborator, abstracted as the parameter `llm` from the
focused prompt to the decoded analysis object. -/
def analyze_build_log (llm : String → Json) (logContent : String)
    (buildInfo : List (String × String)) : Json :=
  let lines := pySplitNewline logContent
  let errors := find_error_lines_with_context lines 5
  if errors.isEmpty then noErrorsResult
  else
    let categories := categorize_errors errors
    let prompt := create_focused_prompt errors buildInfo
    let analysis := llm prompt
    jSetKey (jSetKey analysis "error_count" (.num errors.length))
      "categories" (.obj (categories.map (fun p => (p.1, Json.num p.2.length))))

/-! ## Lemmas about the clusterer -/

lemma clusterAux_flatten (w : Int) :
    ∀ (ns : List Int) (last : Int),
      (clusterAux w last ns).1 ++ ((clusterAux w last ns).2).flatten = ns := by
  intro ns
  induction ns with
  | nil => intro last; rfl
  | cons n rest ih =>
      intro last
      simp only [clusterAux]
      split
      · simpa using ih n
      · simpa using ih n

lemma cluster_indices_flatten (xs : List Int) (w : Int) :
    (cluster_indices xs w).flatten = xs := by
  cases xs with
  | nil => rfl
  | cons i rest =>
      simpa [cluster_indices] using clusterAux_flatten w rest i

lemma clusterAux_rest_ne_nil (w : Int) :
    ∀ (ns : List Int) (last : Int), ∀ c ∈ (clusterAux w last ns).2, c ≠ [] := by
  intro ns
  induction ns with
  | nil => intro last c hc; simp [clusterAux] at hc
  | cons n rest ih =>
      intro last c hc
      simp only [clusterAux] at hc
      split at hc
      · exact ih n c hc
      · rcases List.mem_cons.mp hc with h | h
        · subst h; simp
        · exact ih n c h

lemma cluster_indices_ne_nil (xs : List Int) (w : Int) :
    ∀ c ∈ cluster_indices xs w, c ≠ [] := by
  cases xs with
  | nil => intro c hc; simp [cluster_indices] at hc
  | cons i rest =>
      intro c hc
      simp only [cluster_indices] at hc
      rcases List.mem_cons.mp hc with h | h
      · subst h; simp
      · exact clusterAux_rest_ne_nil w rest i c h

/-- C9: `cluster_indices` partitions its input into non-empty contiguous
runs — concatenating the clusters in order gives back exactly the input
list (no element dropped or duplicated, order preserved, sorted or not),
and every cluster is non-empty. -/
theorem cluster_indices_partition (xs : List Int) (w : Int) :
    (cluster_indices xs w).flatten = xs ∧ ∀ c ∈ cluster_indices xs w, c ≠ [] :=
  ⟨cluster_indices_flatten xs w, cluster_indices_ne_nil xs w⟩

/-! ## Lemmas about the extractor -/

lemma extractGo_total_le (lines : List String) (ctx : Int) (maxChars : Nat) :
    ∀ (cs : List (List Int)) (total : Nat), total ≤ maxChars →
      (extractGo lines ctx maxChars cs total).2 ≤ maxChars := by
  intro cs
  induction cs with
  | nil => intro total h; exact h
  | cons c cs ih =>
      intro total h
      simp only [extractGo]
      split
      · split
        · exact h
        · rename_i h2
          exact ih _ (Nat.le_of_not_lt h2)
      · rename_i h1
        exact ih _ (Nat.le_of_not_lt h1)

lemma extractGo_length_le (lines : List String) (ctx : Int) (maxChars : Nat) :
    ∀ (cs : List (List Int)) (total : Nat),
      (extractGo lines ctx maxChars cs total).1.length ≤ cs.length := by
  intro cs
  induction cs with
  | nil => intro total; simp [extractGo]
  | cons c cs ih =>
      intro total
      simp only [extractGo]
      split
      · split
        · simp
        · simpa using Nat.succ_le_succ (ih _)
      · simpa using Nat.succ_le_succ (ih _)

/-- C1: the extractor's budget invariant.  The second component of
`extract_sections` is the cumulative count of committed characters (the
running `total_chars` the code checks each section against, counting a
fully committed section as its stripped joined text and a half-committed
section as its joined text); it never exceeds `max_chars`, and at most
`max_sections` sections are emitted.  A section whose full text would bust
the remaining budget is retried at half length, and when even the half
version busts the budget the loop stops, keeping the already-committed
sections (visible in the recursion of `extractGo`). -/
theorem extract_sections_within_budget (lines : List String)
    (clusters : List (List Int)) (ctx : Int) (maxSections maxChars : Nat) :
    (extract_sections lines clusters ctx maxSections maxChars).2 ≤ maxChars ∧
      (extract_sections lines clusters ctx maxSections maxChars).1.length ≤ maxSections := by
  constructor
  · exact extractGo_total_le lines ctx maxChars _ 0 (Nat.zero_le _)
  · calc (extract_sections lines clusters ctx maxSections maxChars).1.length
        ≤ (clusters.take maxSections).length := extractGo_length_le lines ctx maxChars _ 0
      _ ≤ maxSections := by simp

/-! ## The validator: concrete checks and exact acceptance condition -/

/-- A fully-populated well-formed collaborator response. -/
def goodResponseExample : Json :=
  .obj [("root_causes", .arr
          [.obj [("cause", .str "missing library foo"),
                 ("evidence", .arr [.obj [("line", .num 12),
                                          ("snippet", .str "ld: cannot find -lfoo")]]),
                 ("confidence", .str "high"),
                 ("next_action", .str "add foo to the link line")]]),
        ("summary", .arr [.str "b1", .str "b2", .str "b3"])]

/-- C4: the schema check rejects `root_causes` of the wrong type, rejects a
root-cause element missing required keys, and accepts a fully-populated
well-formed object. -/
theorem valid_schema_concrete_checks :
    valid_schema (.obj [("root_causes", .str "x")]) = false ∧
    valid_schema (.obj [("root_causes", .arr [.obj [("cause", .str "x")]])]) = false ∧
    valid_schema goodResponseExample = true :=
  ⟨rfl, rfl, rfl⟩

/-- A root-cause element whose `cause`, `confidence` and `next_action` keys
are present but `null`. -/
def nullValuedRootCause : Json :=
  .obj [("cause", .null), ("confidence", .null), ("next_action", .null),
        ("evidence", .arr [.null])]

/-- A response whose only root cause has null `cause`/`confidence`/`next_action`. -/
def nullValuedResponse : Json :=
  .obj [("root_causes", .arr [nullValuedRootCause]), ("summary", .arr [])]

/-- C3 counterexample: `valid_schema` ACCEPTS a root cause whose `cause`,
`confidence` and `next_action` are present but `null` — the code only tests
key presence (`"cause" not in rc`), never the values — refuting the claim
that such an object is rejected. -/
theorem valid_schema_null_counterexample :
    valid_schema nullValuedResponse = true ∧
      jLookup [("cause", Json.null), ("confidence", Json.null),
               ("next_action", Json.null),
               ("evidence", Json.arr [Json.null])] "cause" = some Json.null :=
  ⟨rfl, rfl⟩

/-- What one `root_causes` element must satisfy to pass the schema check:
it is an object whose `cause`, `confidence` and `next_action` keys are
present (with arbitrary values, `null` included) and whose `evidence` key
holds a non-empty array. -/
def ValidRootCauseSpec (rc : Json) : Prop :=
  ∃ kvs, rc = Json.obj kvs ∧
    (jLookup kvs "cause").isSome = true ∧
    (jLookup kvs "confidence").isSome = true ∧
    (jLookup kvs "next_action").isSome = true ∧
    ∃ evs, jLookup kvs "evidence" = some (.arr evs) ∧ evs ≠ []

/-- What a whole response must satisfy to pass the schema check. -/
def AcceptedResponseSpec (j : Json) : Prop :=
  ∃ kvs rcs sums, j = Json.obj kvs ∧
    jLookup kvs "root_causes" = some (.arr rcs) ∧
    jLookup kvs "summary" = some (.arr sums) ∧
    ∀ rc ∈ rcs, ValidRootCauseSpec rc

lemma validRootCause_iff (rc : Json) :
    validRootCause rc = true ↔ ValidRootCauseSpec rc := by
  cases rc with
  | obj kvs =>
      simp only [validRootCause, Bool.and_eq_true, ValidRootCauseSpec]
      constructor
      · rintro ⟨⟨⟨h1, h2⟩, h3⟩, h4⟩
        refine ⟨kvs, rfl, h1, h2, h3, ?_⟩
        revert h4
        split
        · rename_i evs heq
          intro h4
          exact ⟨evs, heq, by simpa using h4⟩
        · intro h4; exact absurd h4 (by simp)
      · rintro ⟨kvs', heq, h1, h2, h3, evs, hev, hne⟩
        cases heq
        refine ⟨⟨⟨h1, h2⟩, h3⟩, ?_⟩
        rw [hev]
        simpa using hne
  | null => simp [validRootCause, ValidRootCauseSpec]
  | bool b => simp [validRootCause, ValidRootCauseSpec]
  | num n => simp [validRootCause, ValidRootCauseSpec]
  | str s => simp [validRootCause, ValidRootCauseSpec]
  | arr l => simp [validRootCause, ValidRootCauseSpec]

/-- C3 amended: the exact acceptance condition of the response validator.
`valid_schema` accepts a parsed response iff it is a top-level object whose
`root_causes` and `summary` fields are arrays and every element of
`root_causes` is an object CONTAINING the keys `cause`, `confidence` and
`next_action` (their values are not inspected — `null` is allowed) together
with a non-empty `evidence` array. -/
theorem valid_schema_accepts_iff (j : Json) :
    valid_schema j = true ↔ AcceptedResponseSpec j := by
  cases j with
  | obj kvs =>
      simp only [valid_schema, Bool.and_eq_true, AcceptedResponseSpec]
      constructor
      · rintro ⟨⟨h1, h2⟩, h3⟩
        revert h1 h2
        split
        · rename_i rcs hrc
          split
          · rename_i sums hsum
            intro _ _
            refine ⟨kvs, rcs, sums, rfl, hrc, hsum, ?_⟩
            intro rc hmem
            have := (List.all_eq_true.mp h3) rc (by simpa [jGetList, hrc] using hmem)
            exact (validRootCause_iff rc).mp this
          · intro _ h; exact absurd h (by simp)
        · intro h _; exact absurd h (by simp)
      · rintro ⟨kvs', rcs, sums, heq, hrc, hsum, hall⟩
        cases heq
        refine ⟨⟨?_, ?_⟩, ?_⟩
        · rw [hrc]
        · rw [hsum]
        · refine List.all_eq_true.mpr ?_
          intro rc hmem
          refine (validRootCause_iff rc).mpr (hall rc ?_)
          simpa [jGetList, hrc] using hmem
  | null => simp [valid_schema, AcceptedResponseSpec]
  | bool b => simp [valid_schema, AcceptedResponseSpec]
  | num n => simp [valid_schema, AcceptedResponseSpec]
  | str s => simp [valid_schema, AcceptedResponseSpec]
  | arr l => simp [valid_schema, AcceptedResponseSpec]

/-! ## Categorizer case-sensitivity -/

/-- C10: `CATEGORY_RULES` is compiled without `re.IGNORECASE`, so a section
whose text matches no rule case-sensitively is categorised `"other"` — and
concretely, `"CMake Error: missing"` IS flagged as an error line by the
case-insensitive detector yet is categorised `"other"`, while its lowercase
form is categorised `"cmake_config"`. -/
theorem categorisation_case_sensitive :
    (∀ text : String,
      CATEGORY_RULES.all (fun rule => !reSearch rule.2 text) = true →
        categorise_section text = "other") ∧
    match_error "CMake Error: missing" = true ∧
    categorise_section "CMake Error: missing" = "other" ∧
    categorise_section "cmake error: missing" = "cmake_config" := by
  refine ⟨?_, by decide, by decide, by decide⟩
  intro text h
  have hnone : CATEGORY_RULES.find? (fun rule => reSearch rule.2 text) = none := by
    refine List.find?_eq_none.mpr ?_
    intro rule hrule
    have := List.all_eq_true.mp h rule hrule
    simpa using this
  simp [categorise_section, hnone]

/-- Witness for the universally quantified part of
`categorisation_case_sensitive`: a text containing category keywords only in
capitalized form matches no rule, hence is categorised `"other"`. -/
theorem categorisation_case_sensitive_witness :
    categorise_section "Undefined Reference To bar" = "other" :=
  categorisation_case_sensitive.1 "Undefined Reference To bar" (by decide)

/-! ## Slackbot: the no-errors early exit -/

lemma felcAux_eq_nil (lines : List String) (ctxLines : Nat) :
    ∀ (rest : List String) (i : Nat),
      (∀ l ∈ rest, ERROR_PATTERNS.all (fun pat => !reSearch pat (strip_ansi l)) = true) →
      felcAux lines ctxLines i rest = [] := by
  intro rest
  induction rest with
  | nil => intro i _; rfl
  | cons l ls ih =>
      intro i h
      have hl := h l (List.mem_cons_self l ls)
      have hmatch : ERROR_PATTERNS.any (fun pat => reSearch pat (strip_ansi l)) = false := by
        rw [List.any_eq_false]
        intro pat hpat
        simpa using List.all_eq_true.mp hl pat hpat
      simp only [felcAux, hmatch, Bool.false_eq_true, if_false]
      exact ih (i + 1) (fun x hx => h x (List.mem_cons_of_mem l hx))

/-- C8: when no line of the log matches any `ERROR_PATTERNS` rule (after
ANSI-stripping), the pipeline produces zero error sections and
`analyze_build_log` returns exactly
`{root_causes: [], summary: ["No errors found in build log"], error_count: 0}`,
for EVERY collaborator `llm` — i.e. the early return fires before the
prompt is built and the external collaborator is never invoked. -/
theorem analyze_build_log_no_errors (llm : String → Json)
    (buildInfo : List (String × String)) (logContent : String)
    (h : ∀ line ∈ pySplitNewline logContent,
      ERROR_PATTERNS.all (fun pat => !reSearch pat (strip_ansi line)) = true) :
    find_error_lines_with_context (pySplitNewline logContent) 5 = [] ∧
      analyze_build_log llm logContent buildInfo = noErrorsResult := by
  have herr : find_error_lines_with_context (pySplitNewline logContent) 5 = [] :=
    felcAux_eq_nil _ 5 _ 0 h
  refine ⟨herr, ?_⟩
  simp [analyze_build_log, herr]

/-- Witness for `analyze_build_log_no_errors` at a concrete clean log. -/
theorem analyze_build_log_no_errors_witness :
    find_error_lines_with_context (pySplitNewline "hello\nworld") 5 = [] ∧
      analyze_build_log (fun _ => Json.null) "hello\nworld" [] = noErrorsResult :=
  analyze_build_log_no_errors (fun _ => Json.null) [] "hello\nworld" (by decide)

/-! ## Lemmas about the fallback synthesizer -/

lemma insertDesc_mem {x y : String × Nat} :
    ∀ {l : List (String × Nat)}, x ∈ insertDesc y l → x = y ∨ x ∈ l := by
  intro l
  induction l with
  | nil => intro h; simpa [insertDesc] using h
  | cons z zs ih =>
      intro h
      simp only [insertDesc] at h
      split at h
      · rcases List.mem_cons.mp h with h | h
        · exact Or.inr (by simp [h])
        · rcases ih h with h | h
          · exact Or.inl h
          · exact Or.inr (List.mem_cons_of_mem z h)
      · rcases List.mem_cons.mp h with h | h
        · exact Or.inl h
        · exact Or.inr h

lemma foldl_insertDesc_mem {x : String × Nat} :
    ∀ (l acc : List (String × Nat)),
      x ∈ l.foldl (fun acc y => insertDesc y acc) acc → x ∈ acc ∨ x ∈ l := by
  intro l
  induction l with
  | nil => intro acc h; exact Or.inl h
  | cons y ys ih =>
      intro acc h
      rcases ih (insertDesc y acc) h with h | h
      · rcases insertDesc_mem h with h | h
        · exact Or.inr (by simp [h])
        · exact Or.inl h
      · exact Or.inr (List.mem_cons_of_mem y h)

lemma firstOccurAux_subset {x : String} :
    ∀ (l seen : List String), x ∈ firstOccurAux seen l → x ∈ l := by
  intro l
  induction l with
  | nil => intro seen h; simp [firstOccurAux] at h
  | cons y ys ih =>
      intro seen h
      simp only [firstOccurAux] at h
      split at h
      · exact List.mem_cons_of_mem y (ih _ h)
      · rcases List.mem_cons.mp h with h | h
        · simp [h]
        · exact List.mem_cons_of_mem y (ih _ h)

/-- Every ranked headline returned by `most_common(3)` is a genuine headline. -/
lemma mostCommon3_mem {p : String × Nat} {heads : List String}
    (h : p ∈ mostCommon3 heads) : p.1 ∈ heads := by
  have h1 : p ∈ stableSortDesc ((firstOccur heads).map (fun k => (k, heads.count k))) :=
    List.mem_of_mem_take h
  have h2 := foldl_insertDesc_mem _ [] h1
  rcases h2 with h2 | h2
  · simp at h2
  · obtain ⟨k, hk, hp⟩ := List.mem_map.mp h2
    have : p.1 = k := by rw [← hp]
    rw [this]
    exact firstOccurAux_subset _ _ hk

/-- A headline in `sectionHeads` is the headline of some section, so the
`next(...)` search in the fallback loop always finds a section. -/
lemma find?_of_sectionHeads {sections : List Section} {cause : String}
    (h : cause ∈ sectionHeads sections) :
    ∃ sec, sections.find? (fun s => s.headline == cause) = some sec := by
  obtain ⟨s, hs, heq⟩ := List.mem_filterMap.mp h
  have hcause : s.headline = cause := by
    by_cases hempty : s.headline = ""
    · simp [hempty] at heq
    · simpa [hempty] using heq
  have : (sections.find? (fun s => s.headline == cause)).isSome := by
    rw [List.find?_isSome]
    exact ⟨s, hs, by simp [hcause]⟩
  exact Option.isSome_iff_exists.mp this

/-- The fallback evidence list of a ranked headline is never empty. -/
lemma fallbackEvidence_ne_nil {sections : List Section} {cause : String}
    (h : cause ∈ sectionHeads sections) :
    fallbackEvidence sections cause ≠ [] := by
  obtain ⟨sec, hsec⟩ := find?_of_sectionHeads h
  unfold fallbackEvidence
  rw [hsec]
  cases hkw : firstKeywordHit 0 sec.lines with
  | none => simp [hkw]
  | some p => cases p with | mk off t => simp [hkw]

/-- The `root_causes` list of a result object. -/
def jRootCauses (j : Json) : List Json :=
  match j with
  | .obj kvs => jGetList kvs "root_causes"
  | _ => []

/-- The `evidence` list of a root-cause object. -/
def jEvidence (rc : Json) : List Json :=
  match rc with
  | .obj kvs => jGetList kvs "evidence"
  | _ => []

/-- Field access on a JSON object. -/
def jField (j : Json) (key : String) : Option Json :=
  match j with
  | .obj kvs => jLookup kvs key
  | _ => none

lemma fallback_obj_root_causes (sections : List Section) :
    jRootCauses (fallback_obj sections) =
      (mostCommon3 (sectionHeads sections)).map (fun p => fallbackRc sections p.1) := rfl

lemma validRootCause_fallbackRc {sections : List Section} {cause : String}
    (h : cause ∈ sectionHeads sections) :
    validRootCause (fallbackRc sections cause) = true := by
  have hev := fallbackEvidence_ne_nil h
  simp [fallbackRc, validRootCause, jLookup, hev]

/-- The fallback object always passes the schema check. -/
lemma valid_schema_fallback_obj (sections : List Section) :
    valid_schema (fallback_obj sections) = true := by
  have heq : valid_schema (fallback_obj sections) =
      ((mostCommon3 (sectionHeads sections)).map
        (fun p => fallbackRc sections p.1)).all validRootCause := rfl
  rw [heq, List.all_eq_true]
  intro rc hrc
  obtain ⟨p, hp, hrc'⟩ := List.mem_map.mp hrc
  rw [← hrc']
  exact validRootCause_fallbackRc (mostCommon3_mem hp)

/-- When `parse_llm_response` reports success its object passed the schema
check. -/
lemma parse_ok_valid (loads : String → Option Json) (raw : String)
    (h : (parse_llm_response loads raw).2 = "") :
    valid_schema (parse_llm_response loads raw).1 = true := by
  unfold parse_llm_response at *
  by_cases h0 : raw = ""
  · simp [h0] at h
  · by_cases h1 : responseCandidate raw = ""
    · simp [h0, h1] at h
    · simp only [h0, h1, if_neg, if_false] at *
      cases hload : loads (responseCandidate raw) with
      | none => simp [hload] at h
      | some obj =>
          by_cases hv : valid_schema obj = true
          · simp [hload, hv]
          · simp [hload, hv] at h

/-- Every object `run` can report passes the schema check. -/
lemma run_obj_valid (loads : String → Option Json) (raw : String)
    (sections : List Section) :
    valid_schema (run_obj loads raw sections) = true := by
  unfold run_obj
  by_cases h : (parse_llm_response loads raw).2 = ""
  · simp only [h, if_pos rfl]
    exact parse_ok_valid loads raw h
  · simp only [if_neg h]
    exact valid_schema_fallback_obj sections

/-- C5: whenever the collaborator response fails parsing or schema
validation, `run` falls back to the deterministic object, which has at most
3 root causes, each with a non-empty evidence list and confidence fixed to
`"low"`, and a summary of exactly the three disclaimer lines — regardless of
how the sections were categorised. -/
theorem fallback_result_shape (loads : String → Option Json) (raw : String)
    (sections : List Section)
    (h : (parse_llm_response loads raw).2 ≠ "") :
    run_obj loads raw sections = fallback_obj sections ∧
    (jRootCauses (fallback_obj sections)).length ≤ 3 ∧
    (∀ rc ∈ jRootCauses (fallback_obj sections),
      jEvidence rc ≠ [] ∧ jField rc "confidence" = some (.str "low")) ∧
    jField (fallback_obj sections) "summary" = some (.arr fallbackSummary) ∧
    fallbackSummary.length = 3 := by
  refine ⟨by simp [run_obj, h], ?_, ?_, rfl, rfl⟩
  · rw [fallback_obj_root_causes, List.length_map, mostCommon3]
    exact List.length_take_le 3 _
  · intro rc hrc
    rw [fallback_obj_root_causes] at hrc
    obtain ⟨p, hp, hrc'⟩ := List.mem_map.mp hrc
    subst hrc'
    constructor
    · have := fallbackEvidence_ne_nil (mostCommon3_mem hp)
      simpa [fallbackRc, jEvidence, jGetList, jLookup] using this
    · rfl

/-- Witness for `fallback_result_shape`: the empty response fails parsing
(`"empty response"`), and the shape properties hold concretely. -/
theorem fallback_result_shape_witness :
    run_obj (fun _ => none) "" [] = fallback_obj [] ∧
    (jRootCauses (fallback_obj [])).length ≤ 3 ∧
    (∀ rc ∈ jRootCauses (fallback_obj ([] : List Section)),
      jEvidence rc ≠ [] ∧ jField rc "confidence" = some (.str "low")) ∧
    jField (fallback_obj []) "summary" = some (.arr fallbackSummary) ∧
    fallbackSummary.length = 3 :=
  fallback_result_shape (fun _ => none) "" [] (by decide)

/-! ## The completion status of `run` -/

/-- C6 counterexample: with an error-bearing one-line log and an EMPTY
collaborator response, `run` exits with status `1` even though the log
yields a failure line — refuting the claim that a non-zero status occurs
only when the log yields zero failure lines.  (Conversely a log with zero
failure lines exits `0`, see the first case of `run_status_amended`.) -/
theorem run_status_counterexample :
    run_outcome (fun _ => none) ["error: boom"] 8 5 10 12000 "" =
      (1, some emptyResponseResults) ∧
    find_error_indices ["error: boom"] = [1] ∧
    find_error_indices ["error: boom"] ≠ ([] : List Int) :=
  ⟨rfl, rfl, by decide⟩

/-- C6 amended: the completion status is non-zero exactly when the log
yields at least one section AND the collaborator returned an empty response
(`return 1` after writing the deterministic artefacts); a log with zero
failure lines (hence zero sections) exits `0`, and in every other case —
including an invalid response — the status is `0`; moreover every result
object the invocation reports is schema-valid. -/
theorem run_status_amended (loads : String → Option Json) (lines : List String)
    (window ctx : Int) (maxSections maxChars : Nat) (raw : String) :
    ((run_outcome loads lines window ctx maxSections maxChars raw).1 ≠ 0 ↔
      (extract_sections lines (cluster_indices (find_error_indices lines) window)
        ctx maxSections maxChars).1 ≠ [] ∧ raw = "") ∧
    (∀ j, (run_outcome loads lines window ctx maxSections maxChars raw).2 = some j →
      valid_schema j = true) := by
  unfold run_outcome
  by_cases hsec : (extract_sections lines (cluster_indices (find_error_indices lines) window)
      ctx maxSections maxChars).1.isEmpty
  · rw [if_pos hsec]
    constructor
    · simp [List.isEmpty_iff.mp hsec]
    · intro j hj; simp at hj
  · rw [if_neg hsec]
    by_cases hraw : raw = ""
    · rw [if_pos hraw]
      constructor
      · simp [hraw, List.isEmpty_iff] at hsec ⊢
        exact hsec
      · intro j hj
        simp only [Option.some.injEq] at hj
        rw [← hj]
        rfl
    · rw [if_neg hraw]
      constructor
      · simp [hraw]
      · intro j hj
        simp only [Option.some.injEq] at hj
        rw [← hj]
        exact run_obj_valid loads raw _

/-- Witness for `run_status_amended`: the report of an empty-response run is
schema-valid (instantiated at a concrete log and response). -/
theorem run_status_amended_witness : valid_schema emptyResponseResults = true :=
  (run_status_amended (fun _ => none) ["error: boom"] 8 5 10 12000 "").2
    emptyResponseResults rfl

/-! ## Fallback evidence line numbers -/

/-- A 16-line log whose only flagged line is line 11 (`fatal: w`), with an
`error`-keyword line at the very end of the context window. -/
def logC7 : List String :=
  ["a1", "a2", "a3", "a4", "a5", "a6", "a7", "a8", "a9", "a10",
   "fatal: w", "a12", "a13", "a14", "a15", "see error"]

/-- The sections the pipeline extracts from `logC7` at the default knobs. -/
def sectionsC7 : List Section :=
  (extract_sections logC7 (cluster_indices (find_error_indices logC7) 8) 5 10 12000).1

/-- C7 counterexample: on the 16-line log `logC7` the fallback synthesizer
emits a root cause whose only evidence entry has `line = 21` — the code adds
the keyword hit's offset within the context window to the cluster's head
line number instead of to the window's (clipped) start — so the evidence
`line` does NOT refer to a real line number of the source log. -/
theorem fallback_evidence_line_counterexample :
    logC7.length = 16 ∧
    (jRootCauses (fallback_obj sectionsC7)).map
      (fun rc => (jEvidence rc).map (fun e => jField e "line")) =
      [[some (Json.num 21)]] ∧
    ¬((21 : Int) ≤ 16) :=
  ⟨rfl, rfl, by decide⟩

lemma firstKeywordHit_bounds :
    ∀ (ls : List String) (i off : Nat) (t : String),
      firstKeywordHit i ls = some (off, t) → i ≤ off ∧ off < i + ls.length := by
  intro ls
  induction ls with
  | nil => intro i off t h; simp [firstKeywordHit] at h
  | cons l ls ih =>
      intro i off t h
      simp only [firstKeywordHit] at h
      split at h
      · simp only [Option.some.injEq, Prod.mk.injEq] at h
        obtain ⟨h1, h2⟩ := h
        subst h1
        simp only [List.length_cons]
        omega
      · have := ih (i + 1) off t h
        simp only [List.length_cons]
        omega

/-- C7 amended: every root cause of the fallback result has at least one
evidence entry, and each evidence `line` lies between the originating
section's head line number and that head plus the section's context length —
but (per `fallback_evidence_line_counterexample`) it need not lie within the
source log, and the validated-response path imposes no constraint on
evidence line numbers at all (`valid_schema` never inspects them). -/
theorem fallback_evidence_lines_amended (sections : List Section) :
    ∀ rc ∈ jRootCauses (fallback_obj sections),
      jEvidence rc ≠ [] ∧
      ∃ s ∈ sections, ∀ e ∈ jEvidence rc, ∃ n : Int,
        jField e "line" = some (.num n) ∧
        s.line_number ≤ n ∧ n ≤ s.line_number + s.lines.length := by
  intro rc hrc
  rw [fallback_obj_root_causes] at hrc
  obtain ⟨p, hp, hrc'⟩ := List.mem_map.mp hrc
  subst hrc'
  have hcause := mostCommon3_mem hp
  obtain ⟨sec, hsec⟩ := find?_of_sectionHeads hcause
  have hmem : sec ∈ sections := List.mem_of_find?_eq_some hsec
  constructor
  · have := fallbackEvidence_ne_nil hcause
    simpa [fallbackRc, jEvidence, jGetList, jLookup] using this
  · refine ⟨sec, hmem, ?_⟩
    intro e he
    have hje : jEvidence (fallbackRc sections p.1) = fallbackEvidence sections p.1 := rfl
    rw [hje] at he
    cases hkw : firstKeywordHit 0 sec.lines with
    | some q =>
        cases q with
        | mk off t =>
            have hfe : fallbackEvidence sections p.1 =
                [Json.obj [("line", Json.num (sec.line_number + off)),
                           ("snippet", Json.str (pyTake 200 (pyStrip t)))]] := by
              unfold fallbackEvidence
              simp only [hsec, hkw]
            rw [hfe] at he
            simp only [List.mem_singleton] at he
            subst he
            refine ⟨sec.line_number + off, rfl, ?_, ?_⟩
            · omega
            · have hb := (firstKeywordHit_bounds sec.lines 0 off t hkw).2
              omega
    | none =>
        have hfe : fallbackEvidence sections p.1 =
            [Json.obj [("line", Json.num sec.line_number),
                       ("snippet", Json.str (pyTake 200 sec.headline))]] := by
          unfold fallbackEvidence
          simp only [hsec, hkw]
        rw [hfe] at he
        simp only [List.mem_singleton] at he
        subst he
        exact ⟨sec.line_number, rfl, le_refl _, by omega⟩

/-- A one-section input for the witness of `fallback_evidence_lines_amended`. -/
def sectionsC7w : List Section := [⟨3, "h", ["x"]⟩]

/-- Witness for `fallback_evidence_lines_amended` at a concrete section list. -/
theorem fallback_evidence_lines_amended_witness :
    jEvidence (fallbackRc sectionsC7w "h") ≠ [] ∧
    ∃ s ∈ sectionsC7w, ∀ e ∈ jEvidence (fallbackRc sectionsC7w "h"), ∃ n : Int,
      jField e "line" = some (.num n) ∧
      s.line_number ≤ n ∧ n ≤ s.line_number + s.lines.length :=
  fallback_evidence_lines_amended sectionsC7w (fallbackRc sectionsC7w "h") (by
    have h : jRootCauses (fallback_obj sectionsC7w) = [fallbackRc sectionsC7w "h"] := rfl
    rw [h]
    exact List.mem_singleton.mpr rfl)

/-! ## Clusterer: window guarantees -/

/-- `a` and `b` land in one common cluster of `cluster_indices xs w`. -/
def SameCluster (xs : List Int) (w : Int) (a b : Int) : Prop :=
  ∃ c ∈ cluster_indices xs w, a ∈ c ∧ b ∈ c

/-- A log whose flagged lines are exactly 1, 9 and 17. -/
def logC2 : List String :=
  ["error: a", "b", "b", "b", "b", "b", "b", "b",
   "error: b", "b", "b", "b", "b", "b", "b", "b", "error: c"]

/-- C2 counterexample: the flagged lines of `logC2` are `[1, 9, 17]`; with
the default window 8 they all land in ONE cluster although `17 - 1 > 8` —
clustering chains through intermediate flagged lines, so two flagged lines
at distance greater than `window` are NOT always split. -/
theorem cluster_window_counterexample :
    find_error_indices logC2 = [1, 9, 17] ∧
    cluster_indices [1, 9, 17] 8 = [[1, 9, 17]] ∧
    (17 : Int) - 1 > 8 :=
  ⟨rfl, rfl, by decide⟩

lemma clusterAux_fst_subset {w last : Int} {ns : List Int} {x : Int}
    (h : x ∈ (clusterAux w last ns).1) : x ∈ ns := by
  rw [← clusterAux_flatten w ns last]
  exact List.mem_append_left _ h

lemma clusterAux_snd_subset {w last : Int} {ns : List Int} {c : List Int} {x : Int}
    (hc : c ∈ (clusterAux w last ns).2) (hx : x ∈ c) : x ∈ ns := by
  rw [← clusterAux_flatten w ns last]
  exact List.mem_append_right _ (List.mem_flatten.mpr ⟨c, hc, hx⟩)

/-- Adjacent elements within the window end up in a common cluster piece of
`clusterAux`. -/
lemma clusterAux_adj_same (w : Int) :
    ∀ (l : List Int) (last a b : Int) (r ns : List Int),
      ns = l ++ a :: b :: r → b - a ≤ w →
      (a ∈ (clusterAux w last ns).1 ∧ b ∈ (clusterAux w last ns).1) ∨
        ∃ c ∈ (clusterAux w last ns).2, a ∈ c ∧ b ∈ c := by
  intro l
  induction l with
  | nil =>
      intro last a b r ns hns hw
      subst hns
      have hinner : clusterAux w a (b :: r) =
          (b :: (clusterAux w b r).1, (clusterAux w b r).2) := by
        simp [clusterAux, hw]
      simp only [clusterAux, hinner]
      split
      · exact Or.inl ⟨by simp, by simp⟩
      · exact Or.inr ⟨a :: b :: (clusterAux w b r).1, by simp, by simp, by simp⟩
  | cons x l' ih =>
      intro last a b r ns hns hw
      subst hns
      have hx := ih x a b r (l' ++ a :: b :: r) rfl hw
      simp only [List.cons_append, clusterAux]
      split
      · rcases hx with ⟨ha, hb⟩ | ⟨c, hc, hac, hbc⟩
        · exact Or.inl ⟨List.mem_cons_of_mem x ha, List.mem_cons_of_mem x hb⟩
        · exact Or.inr ⟨c, hc, hac, hbc⟩
      · rcases hx with ⟨ha, hb⟩ | ⟨c, hc, hac, hbc⟩
        · exact Or.inr ⟨x :: (clusterAux w x (l' ++ a :: b :: r)).1, by simp,
            List.mem_cons_of_mem x ha, List.mem_cons_of_mem x hb⟩
        · exact Or.inr ⟨c, List.mem_cons_of_mem _ hc, hac, hbc⟩

/-- Adjacent elements of the input within the window share a cluster. -/
lemma adj_same_cluster {xs : List Int} {w a b : Int} (l r : List Int)
    (hxs : xs = l ++ a :: b :: r) (hw : b - a ≤ w) : SameCluster xs w a b := by
  cases l with
  | nil =>
      subst hxs
      have hinner : clusterAux w a (b :: r) =
          (b :: (clusterAux w b r).1, (clusterAux w b r).2) := by
        simp [clusterAux, hw]
      refine ⟨a :: b :: (clusterAux w b r).1, ?_, by simp, by simp⟩
      simp [cluster_indices, hinner]
  | cons x l' =>
      subst hxs
      rcases clusterAux_adj_same w l' x a b r (l' ++ a :: b :: r) rfl hw with
        ⟨ha, hb⟩ | ⟨c, hc, hac, hbc⟩
      · exact ⟨x :: (clusterAux w x (l' ++ a :: b :: r)).1, by simp [cluster_indices],
          List.mem_cons_of_mem x ha, List.mem_cons_of_mem x hb⟩
      · exact ⟨c, by simp [cluster_indices, hc], hac, hbc⟩

/-- Every element of the input is in some cluster. -/
lemma mem_cluster_of_mem {xs : List Int} {w x : Int} (h : x ∈ xs) :
    ∃ c ∈ cluster_indices xs w, x ∈ c := by
  rw [← cluster_indices_flatten xs w] at h
  exact List.mem_flatten.mp h

/-- On duplicate-free input the clusters are pairwise disjoint, so sharing a
cluster is transitive. -/
lemma sameCluster_trans {xs : List Int} {w a m b : Int} (hnd : xs.Nodup)
    (h1 : SameCluster xs w a m) (h2 : SameCluster xs w m b) :
    SameCluster xs w a b := by
  obtain ⟨c, hc, hac, hmc⟩ := h1
  obtain ⟨c', hc', hmc', hbc'⟩ := h2
  by_cases hcc : c = c'
  · subst hcc
    exact ⟨c, hc, hac, hbc'⟩
  · have hflat : (cluster_indices xs w).flatten.Nodup := by
      rw [cluster_indices_flatten]; exact hnd
    have hdisj : List.Pairwise List.Disjoint (cluster_indices xs w) :=
      (List.nodup_flatten.mp hflat).2
    have hsym : Symmetric (List.Disjoint (α := Int)) := fun u v h => h.symm
    exact absurd (hdisj.forall hsym hc hc' hcc hmc hmc') id

/-- On sorted input, elements `d` positions apart and within the window
share a cluster (each intermediate consecutive gap is bounded by the total
gap, so the chain never breaks in between). -/
lemma sorted_close_same_cluster {xs : List Int} {w : Int}
    (hpw : List.Pairwise (· < ·) xs) :
    ∀ (d i j : Nat) (hi : i < xs.length) (hj : j < xs.length), j = i + d →
      xs[j] - xs[i] ≤ w → SameCluster xs w xs[i] xs[j] := by
  have hnd : xs.Nodup := hpw.imp (fun h => ne_of_lt h)
  intro d
  induction d with
  | zero =>
      intro i j hi hj hij hle
      subst hij
      obtain ⟨c, hc, hxc⟩ := mem_cluster_of_mem (w := w) (xs.getElem_mem hj)
      exact ⟨c, hc, hxc, hxc⟩
  | succ d ih =>
      intro i j hi hj hij hle
      have hi1 : i + 1 < xs.length := by omega
      have hmono := List.pairwise_iff_getElem.mp hpw
      have h2 : xs[i] < xs[i+1] := hmono i (i+1) hi hi1 (by omega)
      have hstep : xs[i+1] - xs[i] ≤ w := by
        have h1 : xs[i+1] ≤ xs[j] := by
          rcases Nat.lt_or_ge (i+1) j with hlt | hge
          · exact le_of_lt (hmono (i+1) j hi1 hj hlt)
          · have hj1 : i + 1 = j := by omega
            subst hj1
            exact le_refl _
        omega
      have hadj : SameCluster xs w xs[i] xs[i+1] := by
        apply adj_same_cluster (xs.take i) (xs.drop (i+2)) ?_ hstep
        conv_lhs => rw [← List.take_append_drop i xs]
        rw [List.drop_eq_getElem_cons hi, List.drop_eq_getElem_cons hi1]
      have hihgap : xs[j] - xs[i+1] ≤ w := by omega
      have hrest : SameCluster xs w xs[i+1] xs[j] := ih (i+1) j hi1 hj (by omega) hihgap
      exact sameCluster_trans hnd hadj hrest

/-- Part (a) of the amended window guarantee, in membership form. -/
lemma close_same_cluster {xs : List Int} {w a b : Int}
    (hs : List.Chain' (· < ·) xs) (ha : a ∈ xs) (hb : b ∈ xs)
    (hab : a ≤ b) (hw : b - a ≤ w) : SameCluster xs w a b := by
  have hpw : List.Pairwise (· < ·) xs := List.chain'_iff_pairwise.mp hs
  obtain ⟨i, hi, hia⟩ := List.mem_iff_getElem.mp ha
  obtain ⟨j, hj, hjb⟩ := List.mem_iff_getElem.mp hb
  rcases le_or_lt i j with hle | hlt
  · have := sorted_close_same_cluster (w := w) hpw (j - i) i j hi hj (by omega)
      (by rw [hia, hjb]; exact hw)
    rwa [hia, hjb] at this
  · have hba : xs[j] < xs[i] := (List.pairwise_iff_getElem.mp hpw) j i hj hi hlt
    rw [hia, hjb] at hba
    exact absurd hab (not_le.mpr hba)

/-- Over-the-window adjacent elements never share a cluster piece of
`clusterAux` (on duplicate-free input). -/
lemma clusterAux_adj_split (w : Int) :
    ∀ (l : List Int) (last a b : Int) (r ns : List Int),
      ns = l ++ a :: b :: r → w < b - a → (last :: ns).Nodup →
      ¬(a ∈ (clusterAux w last ns).1 ∧ b ∈ (clusterAux w last ns).1) ∧
        ∀ c ∈ (clusterAux w last ns).2, ¬(a ∈ c ∧ b ∈ c) := by
  intro l
  induction l with
  | nil =>
      intro last a b r ns hns hw hnd
      subst hns
      have hba : ¬ (b - a ≤ w) := by omega
      have hinner : clusterAux w a (b :: r) =
          ([], (b :: (clusterAux w b r).1) :: (clusterAux w b r).2) := by
        simp [clusterAux, hba]
      have hnd1 : (a :: b :: r).Nodup := List.Nodup.of_cons hnd
      have hanotin : a ∉ b :: r := (List.nodup_cons.mp hnd1).1
      have hq1 : ∀ x ∈ (clusterAux w b r).1, x ∈ r := fun x hx => clusterAux_fst_subset hx
      have hq2 : ∀ c ∈ (clusterAux w b r).2, ∀ x ∈ c, x ∈ r :=
        fun c hc x hx => clusterAux_snd_subset hc hx
      simp only [clusterAux, hinner]
      split
      · constructor
        · rintro ⟨ha, hb⟩
          simp only [List.cons_ne_self, List.mem_singleton] at hb
          exact hanotin (List.mem_cons.mpr (Or.inl hb.symm))
        · intro c hc
          rintro ⟨hac, hbc⟩
          rcases List.mem_cons.mp hc with hceq | hcm
          · subst hceq
            rcases List.mem_cons.mp hac with h | h
            · exact hanotin (List.mem_cons.mpr (Or.inl h))
            · exact hanotin (List.mem_cons.mpr (Or.inr (hq1 a h)))
          · exact hanotin (List.mem_cons.mpr (Or.inr (hq2 c hcm a hac)))
      · constructor
        · rintro ⟨ha, _⟩
          simp at ha
        · intro c hc
          rintro ⟨hac, hbc⟩
          rcases List.mem_cons.mp hc with hceq | hcm
          · subst hceq
            simp only [List.mem_singleton] at hbc
            exact hanotin (List.mem_cons.mpr (Or.inl hbc.symm))
          · rcases List.mem_cons.mp hcm with hceq2 | hcm2
            · subst hceq2
              rcases List.mem_cons.mp hac with h | h
              · exact hanotin (List.mem_cons.mpr (Or.inl h))
              · exact hanotin (List.mem_cons.mpr (Or.inr (hq1 a h)))
            · exact hanotin (List.mem_cons.mpr (Or.inr (hq2 c hcm2 a hac)))
  | cons x l' ih =>
      intro last a b r ns hns hw hnd
      subst hns
      have hnd' : (x :: (l' ++ a :: b :: r)).Nodup := by
        simpa using List.Nodup.of_cons hnd
      have ihx := ih x a b r (l' ++ a :: b :: r) rfl hw hnd'
      have hxnotin : x ∉ l' ++ a :: b :: r := (List.nodup_cons.mp hnd').1
      have hax : a ≠ x := fun h => hxnotin (h ▸ (by simp))
      have hbx : b ≠ x := fun h => hxnotin (h ▸ (by simp))
      simp only [List.cons_append, clusterAux]
      split
      · constructor
        · rintro ⟨ha, hb⟩
          rcases List.mem_cons.mp ha with h | ha'
          · exact hax h
          · rcases List.mem_cons.mp hb with h | hb'
            · exact hbx h
            · exact ihx.1 ⟨ha', hb'⟩
        · exact ihx.2
      · constructor
        · rintro ⟨ha, _⟩
          simp at ha
        · intro c hc
          rintro ⟨hac, hbc⟩
          rcases List.mem_cons.mp hc with hceq | hcm
          · subst hceq
            rcases List.mem_cons.mp hac with h | ha'
            · exact hax h
            · rcases List.mem_cons.mp hbc with h | hb'
              · exact hbx h
              · exact ihx.1 ⟨ha', hb'⟩
          · exact ihx.2 c hcm ⟨hac, hbc⟩

/-- Part (b) of the amended window guarantee: CONSECUTIVE flagged numbers
further apart than the window are split into different clusters. -/
lemma consecutive_split {xs : List Int} {w a b : Int} (hnd : xs.Nodup)
    (l r : List Int) (hxs : xs = l ++ a :: b :: r) (hw : w < b - a) :
    ¬ SameCluster xs w a b := by
  cases l with
  | nil =>
      subst hxs
      have hba : ¬ (b - a ≤ w) := by omega
      have hinner : clusterAux w a (b :: r) =
          ([], (b :: (clusterAux w b r).1) :: (clusterAux w b r).2) := by
        simp [clusterAux, hba]
      have hanotin : a ∉ b :: r := (List.nodup_cons.mp hnd).1
      have hq1 : ∀ x ∈ (clusterAux w b r).1, x ∈ r := fun x hx => clusterAux_fst_subset hx
      have hq2 : ∀ c ∈ (clusterAux w b r).2, ∀ x ∈ c, x ∈ r :=
        fun c hc x hx => clusterAux_snd_subset hc hx
      rintro ⟨c, hc, hac, hbc⟩
      simp only [List.nil_append, cluster_indices, hinner] at hc
      rcases List.mem_cons.mp hc with hceq | hcm
      · subst hceq
        simp only [List.mem_singleton] at hbc
        exact hanotin (List.mem_cons.mpr (Or.inl hbc.symm))
      · rcases List.mem_cons.mp hcm with hceq2 | hcm2
        · subst hceq2
          rcases List.mem_cons.mp hac with h | h
          · exact hanotin (List.mem_cons.mpr (Or.inl h))
          · exact hanotin (List.mem_cons.mpr (Or.inr (hq1 a h)))
        · exact hanotin (List.mem_cons.mpr (Or.inr (hq2 c hcm2 a hac)))
  | cons x l' =>
      subst hxs
      have hnd' : (x :: (l' ++ a :: b :: r)).Nodup := by simpa using hnd
      have hG := clusterAux_adj_split w l' x a b r (l' ++ a :: b :: r) rfl hw hnd'
      have hxnotin : x ∉ l' ++ a :: b :: r := (List.nodup_cons.mp hnd').1
      have hax : a ≠ x := fun h => hxnotin (h ▸ (by simp))
      have hbx : b ≠ x := fun h => hxnotin (h ▸ (by simp))
      rintro ⟨c, hc, hac, hbc⟩
      simp only [List.cons_append, cluster_indices] at hc
      rcases List.mem_cons.mp hc with hceq | hcm
      · subst hceq
        rcases List.mem_cons.mp hac with h | ha'
        · exact hax h
        · rcases List.mem_cons.mp hbc with h | hb'
          · exact hbx h
          · exact hG.1 ⟨ha', hb'⟩
      · exact hG.2 c hcm ⟨hac, hbc⟩

/-- C2 amended: over a strictly increasing flagged-line list (which is what
the detector produces), any two flagged line numbers at distance at most
`window` land in the same cluster, and two CONSECUTIVE flagged line numbers
at distance greater than `window` land in different clusters.  (Two
non-consecutive flagged numbers at distance greater than `window` can still
share a cluster by chaining — see `cluster_window_counterexample`.) -/
theorem cluster_indices_window_amended (xs : List Int) (w : Int)
    (hs : List.Chain' (· < ·) xs) :
    (∀ a b, a ∈ xs → b ∈ xs → a ≤ b → b - a ≤ w → SameCluster xs w a b) ∧
    (∀ l a b r, xs = l ++ a :: b :: r → b - a > w → ¬ SameCluster xs w a b) := by
  constructor
  · intro a b ha hb hab hw
    exact close_same_cluster hs ha hb hab hw
  · intro l a b r hxs hw
    have hnd : xs.Nodup := (List.chain'_iff_pairwise.mp hs).imp (fun h => ne_of_lt h)
    exact consecutive_split hnd l r hxs (by omega)

/-- Witness for `cluster_indices_window_amended` on the flagged list
`[1, 5, 20]` with window 8: `1` and `5` (distance 4) share a cluster,
consecutive `5` and `20` (distance 15) do not. -/
theorem cluster_indices_window_amended_witness :
    SameCluster [1, 5, 20] 8 1 5 ∧ ¬ SameCluster [1, 5, 20] 8 5 20 := by
  have h := cluster_indices_window_amended [1, 5, 20] 8
    (by norm_num [List.chain'_cons])
  exact ⟨h.1 1 5 (by decide) (by decide) (by decide) (by decide),
         h.2 [1] 5 20 [] rfl (by decide)⟩
